import Mathlib

/-!
Shallow embedding of the `python-backup` repository (jesseelwell/python-backup).

The embedded code lives in `src/backup/BackupManager.py` (class
`backup_manager`) and in the older single-file variant `src/backup.py`
(class `backup`).  Strings are modelled as `List Char`; the remote side
(exit codes of the `ssh`/`rsync` subprocesses, directory listings) is
passed in explicitly as data.  Raised Python exceptions and process
termination through the printer's `fatal` are modelled by an explicit
outcome type.
-/

namespace PyBackup

/-! ## Characters and decimal printing -/

/-- Decimal digit character: `digitChar d` is the character `'0' + d`. -/
def digitChar (d : Nat) : Char := Char.ofNat (48 + d)

/-- Is `c` an ASCII decimal digit (regex `\d` over the backup names)? -/
def isDig (c : Char) : Bool := 48 ≤ c.toNat && c.toNat ≤ 57

/-- Numeric value of a digit character (only meaningful when `isDig c`). -/
def digitVal (c : Char) : Nat := c.toNat - 48

/-- Fuel-driven decimal printing helper: digits of `n`, most significant
first.  `fuel ≥ n` suffices for full expansion. -/
def natToCharsAux : Nat → Nat → List Char
  | _, 0 => []
  | 0, _ + 1 => []
  | fuel + 1, m + 1 => natToCharsAux fuel ((m + 1) / 10) ++ [digitChar ((m + 1) % 10)]

/-- Decimal digits of `n`, most significant first (`"0"` for `0`),
as produced by C `printf`/Python `str` for naturals. -/
def natToChars (n : Nat) : List Char := if n = 0 then ['0'] else natToCharsAux n n

/-- Zero-padding to two characters, as `strftime` does for `%m`, `%d`,
`%H`, `%M`, `%S`. -/
def pad2 (n : Nat) : List Char := if n < 10 then '0' :: natToChars n else natToChars n

/-! ## Datetimes

`datetime.datetime` truncated to whole seconds (the `%m-%d-%Y-%H:%M:%S`
format has no sub-second field). -/

structure DateTime where
  year : Nat
  month : Nat
  day : Nat
  hour : Nat
  minute : Nat
  second : Nat
deriving DecidableEq, Repr

/-- Gregorian leap-year rule used by `datetime`. -/
def isLeapYear (y : Nat) : Bool := y % 4 = 0 && (y % 100 ≠ 0 || y % 400 = 0)

/-- Days in a month, as validated by the `datetime` constructor. -/
def daysInMonth (y m : Nat) : Nat :=
  if m = 2 then (if isLeapYear y then 29 else 28)
  else if m = 4 || m = 6 || m = 9 || m = 11 then 30
  else 31

/-- The validity check performed by the `datetime.datetime` constructor
(`MINYEAR = 1`, `MAXYEAR = 9999`, calendar day bounds, seconds `0..59`). -/
def DateTime.valid (t : DateTime) : Bool :=
  1 ≤ t.year && t.year ≤ 9999 &&
  1 ≤ t.month && t.month ≤ 12 &&
  1 ≤ t.day && t.day ≤ daysInMonth t.year t.month &&
  t.hour ≤ 23 && t.minute ≤ 59 && t.second ≤ 59

/-- Chronological sort key: lexicographic on
(year, month, day, hour, minute, second), encoded base 100 (all fields
except the year are `< 100` for valid datetimes, so `key` ordering is
exactly `datetime` ordering). -/
def DateTime.key (t : DateTime) : Nat :=
  ((((t.year * 100 + t.month) * 100 + t.day) * 100 + t.hour) * 100 + t.minute) * 100 + t.second

/-- `datetime.strftime('%m-%d-%Y-%H:%M:%S')`: two-digit zero-padded
month/day/hour/minute/second, the year in plain decimal (four digits for
any wall-clock year 1000–9999). -/
def strftimeFmt (t : DateTime) : List Char :=
  pad2 t.month ++ '-' :: (pad2 t.day ++ '-' :: (natToChars t.year ++ '-' ::
    (pad2 t.hour ++ ':' :: (pad2 t.minute ++ ':' :: pad2 t.second))))

/-! ## `strptime` for the format `%m-%d-%Y-%H:%M:%S`

CPython's `_strptime` compiles the format to the regular expression
`(1[0-2]|0[1-9]|[1-9])-(3[01]|[12]\d|0[1-9]|[1-9])-(\d\d\d\d)-`
`(2[0-3]|[0-1]\d|\d):([0-5]\d|\d):(6[0-1]|[0-5]\d|\d)`, matches it
against the data string with leftmost (priority-ordered, backtracking)
alternation, raises if there is unconverted data after the match, and
finally constructs a `datetime` (which validates the fields).

Each directive below returns its candidate parses in the regex's
priority order; the overall match is a depth-first search through those
candidates, exactly like the backtracking regex engine. -/

/-- One character from the codepoint range `[lo, hi]`. -/
def cand1 (lo hi : Nat) : List Char → List (Nat × List Char)
  | c :: r => if lo ≤ c.toNat && c.toNat ≤ hi then [(digitVal c, r)] else []
  | [] => []

/-- Two characters, the first from `[lo1, hi1]`, the second from
`[lo2, hi2]`, read as a two-digit number. -/
def cand2 (lo1 hi1 lo2 hi2 : Nat) : List Char → List (Nat × List Char)
  | c1 :: c2 :: r =>
    if lo1 ≤ c1.toNat && c1.toNat ≤ hi1 && lo2 ≤ c2.toNat && c2.toNat ≤ hi2 then
      [(digitVal c1 * 10 + digitVal c2, r)]
    else []
  | _ => []

/-- `%m`: `1[0-2]|0[1-9]|[1-9]` (codepoints: '0' = 48 … '9' = 57). -/
def candM (s : List Char) : List (Nat × List Char) :=
  cand2 49 49 48 50 s ++ cand2 48 48 49 57 s ++ cand1 49 57 s

/-- `%d`: `3[01]|[12]\d|0[1-9]|[1-9]`. -/
def candD (s : List Char) : List (Nat × List Char) :=
  cand2 51 51 48 49 s ++ cand2 49 50 48 57 s ++ cand2 48 48 49 57 s ++ cand1 49 57 s

/-- `%Y`: `\d\d\d\d` (exactly four digits). -/
def candY : List Char → List (Nat × List Char)
  | a :: b :: c :: d :: r =>
    if isDig a && isDig b && isDig c && isDig d then
      [(((digitVal a * 10 + digitVal b) * 10 + digitVal c) * 10 + digitVal d, r)]
    else []
  | _ => []

/-- `%H`: `2[0-3]|[0-1]\d|\d`. -/
def candH (s : List Char) : List (Nat × List Char) :=
  cand2 50 50 48 51 s ++ cand2 48 49 48 57 s ++ cand1 48 57 s

/-- `%M`: `[0-5]\d|\d`. -/
def candMin (s : List Char) : List (Nat × List Char) :=
  cand2 48 53 48 57 s ++ cand1 48 57 s

/-- `%S`: `6[0-1]|[0-5]\d|\d`. -/
def candS (s : List Char) : List (Nat × List Char) :=
  cand2 54 54 48 49 s ++ cand2 48 53 48 57 s ++ cand1 48 57 s

/-- A literal character of the format string. -/
def lit (ch : Char) : List Char → Option (List Char)
  | c :: r => if c = ch then some r else none
  | [] => none

/-- The regex match for `%m-%d-%Y-%H:%M:%S`: first successful parse in
backtracking order, with the unconsumed remainder. -/
def matchFmt (s : List Char) : Option (DateTime × List Char) :=
  (candM s).findSome? fun mo =>
  (lit '-' mo.2).bind fun s2 =>
  (candD s2).findSome? fun dy =>
  (lit '-' dy.2).bind fun s4 =>
  (candY s4).findSome? fun yr =>
  (lit '-' yr.2).bind fun s6 =>
  (candH s6).findSome? fun hr =>
  (lit ':' hr.2).bind fun s8 =>
  (candMin s8).findSome? fun mi =>
  (lit ':' mi.2).bind fun s10 =>
  (candS s10).findSome? fun sc =>
  some (⟨yr.1, mo.1, dy.1, hr.1, mi.1, sc.1⟩, sc.2)

/-- `datetime.datetime.strptime(s, '%m-%d-%Y-%H:%M:%S')`: `none` models a
raised `ValueError` (no match, unconverted trailing data, or invalid
calendar fields). -/
def strptimeFmt (s : List Char) : Option DateTime :=
  match matchFmt s with
  | some (t, []) => if t.valid then some t else none
  | _ => none

/-! ## Name generation and prefix stripping -/

/-- `str.lstrip(chars)`: drop leading characters that belong to the
character set of `chars` (for `chars = ''` nothing is dropped). -/
def lstrip (chars s : List Char) : List Char := s.dropWhile fun c => chars.contains c

/-- `backup_manager.__generate_backup_name` /
`backup.generate_backup_name`: the configured prefix followed by the
timestamp of the current time in format `%m-%d-%Y-%H:%M:%S`. -/
def generate_backup_name (pre : List Char) (t : DateTime) : List Char :=
  pre ++ strftimeFmt t

/-- The sort key used by `__sort_backup_names` / `sort_backups`:
`datetime.strptime(x.lstrip(prefix), fmt)`, as a `Nat` (chronological). -/
def nameKey (pre s : List Char) : Option Nat :=
  (strptimeFmt (lstrip pre s)).map DateTime.key

/-- Total version of `nameKey` used below once success of all parses has
been established (`0` is never the key of a valid datetime). -/
def nameKeyD (pre s : List Char) : Nat := (nameKey pre s).getD 0

-- Sanity checks of the timestamp machinery on closed inputs.
example : strftimeFmt ⟨2015, 1, 1, 12, 0, 0⟩ = "01-01-2015-12:00:00".toList := by decide
example : strptimeFmt "01-01-2015-12:00:00".toList = some ⟨2015, 1, 1, 12, 0, 0⟩ := by decide
example : strptimeFmt "1-01-2015-12:00:00".toList = some ⟨2015, 1, 1, 12, 0, 0⟩ := by decide
example : strptimeFmt "01-01-2015-12:00:00x".toList = none := by decide
example : strptimeFmt "02-30-2015-12:00:00".toList = none := by decide
example : strptimeFmt "02-29-2016-12:00:00".toList = some ⟨2016, 2, 29, 12, 0, 0⟩ := by decide
example : strptimeFmt "0-05-2020-04:05:06".toList = none := by decide
example : lstrip "1".toList "110-05-2020-04:05:06".toList = "0-05-2020-04:05:06".toList := by
  decide

/-! ## The listing regex

`list_dest_backups` builds `regex = prefix + '\d{2}-\d{2}-\d{4}-\d{2}:\d{2}:\d{2}'`
and keeps the entries `f` with `re.search(regex, f)` — an *unanchored*
substring search.  The configured prefix is spliced into the pattern
verbatim; it is modelled literally (faithful for prefixes without regex
metacharacters, which all of the repository's prefixes are). -/

/-- Consume the literal prefix at the front of `s`. -/
def dropLit : List Char → List Char → Option (List Char)
  | [], s => some s
  | _ :: _, [] => none
  | c :: p, x :: s => if x = c then dropLit p s else none

/-- Consume exactly `n` digit characters. -/
def takeDigits : Nat → List Char → Option (List Char)
  | 0, s => some s
  | _ + 1, [] => none
  | n + 1, c :: s => if isDig c then takeDigits n s else none

/-- Does `prefix + \d{2}-\d{2}-\d{4}-\d{2}:\d{2}:\d{2}` match starting at
the beginning of `s` (further characters may follow)? -/
def matchPatAt (pre s : List Char) : Bool :=
  ((((((((((dropLit pre s).bind (takeDigits 2)).bind (lit '-')).bind
    (takeDigits 2)).bind (lit '-')).bind (takeDigits 4)).bind (lit '-')).bind
    (takeDigits 2)).bind (lit ':')).bind fun r =>
      ((takeDigits 2 r).bind (lit ':')).bind (takeDigits 2)).isSome

/-- `re.search`: try the pattern at every start position. -/
def search (pre : List Char) : List Char → Bool
  | [] => matchPatAt pre []
  | s@(_ :: t) => matchPatAt pre s || search pre t

/-- The *spec's* notion of a snapshot name (for comparison with the code):
the anchored pattern `^<prefix>\d{2}-\d{2}-\d{4}-\d{2}:\d{2}:\d{2}$`
matched against the entire entry. -/
def specFullMatch (pre s : List Char) : Bool :=
  (((((((((((dropLit pre s).bind (takeDigits 2)).bind (lit '-')).bind
    (takeDigits 2)).bind (lit '-')).bind (takeDigits 4)).bind (lit '-')).bind
    (takeDigits 2)).bind (lit ':')).bind fun r =>
      ((takeDigits 2 r).bind (lit ':')).bind (takeDigits 2)) matches some [])

/-! ## Sorting and listing -/

/-- The comparison `__sort_backup_names` sorts by:
`strptime(x.lstrip(prefix), fmt)` ascending. -/
def keyRel (pre : List Char) (a b : List Char) : Prop :=
  nameKeyD pre a ≤ nameKeyD pre b

instance (pre : List Char) : DecidableRel (keyRel pre) :=
  fun a b => inferInstanceAs (Decidable (nameKeyD pre a ≤ nameKeyD pre b))

instance (pre : List Char) : IsTotal (List Char) (keyRel pre) :=
  ⟨fun a b => Nat.le_total (nameKeyD pre a) (nameKeyD pre b)⟩

instance (pre : List Char) : IsTrans (List Char) (keyRel pre) :=
  ⟨fun _ _ _ => Nat.le_trans⟩

instance (pre : List Char) : IsRefl (List Char) (keyRel pre) :=
  ⟨fun a => Nat.le_refl (nameKeyD pre a)⟩

/-- `backup_manager.__sort_backup_names` / `backup.sort_backups`:
`backups.sort(key = strptime-of-stripped-name)`.  Python's sort
pre-computes all keys (propagating a `ValueError` from any failing
parse, modelled as `none`) and then sorts stably and ascending by key;
a stable ascending sort is unique, so insertion sort models it exactly. -/
def sort_backup_names (pre : List Char) (backups : List (List Char)) :
    Option (List (List Char)) :=
  if backups.all fun s => (nameKey pre s).isSome then
    some (backups.insertionSort (keyRel pre))
  else none

/-- `backup_manager.list_dest_backups` / `backup.list_dest_backups`.
`lsRes` is the exit status of the remote `ls`, `entries` its
whitespace-split stdout.  `none` models a non-return: the `fatal(msg, 1)`
process exit when `ls` fails, or the `ValueError` escaping from the sort
when a kept entry's stripped name does not parse. -/
def list_dest_backups (pre : List Char) (lsRes : Nat)
    (entries : List (List Char)) : Option (List (List Char)) :=
  if lsRes ≠ 0 then none
  else sort_backup_names pre (entries.filter fun f => search pre f)

/-- `backup_manager.most_recent_backup`: `None` on an empty list,
otherwise `backups[-1]`. -/
def most_recent_backup (backups : List (List Char)) : Option (List Char) :=
  backups.getLast?

/-! ## Command construction for `create_backup` -/

/-- `os.path.join(a, b)` (posixpath, two arguments). -/
def pathJoin (a b : List Char) : List Char :=
  if b.head? = some '/' then b
  else if a = [] ∨ a.getLast? = some '/' then a ++ b
  else a ++ '/' :: b

/-- `'{}'.format(user)` where `user` may be Python `None`:
`None` renders as the literal string `"None"`. -/
def userStr : Option (List Char) → List Char
  | some u => u
  | none => "None".toList

/-- `backup_manager.__rsync_cmd`: `[rsync_bin, rsync_flags, '-v']`, plus
`'-n'` on a dry run, plus `['-e', 'ssh -i <key>']` when an ssh key is
configured. -/
def rsync_cmd (rsyncBin rsyncFlags : List Char) (dryRun : Bool)
    (sshKey : Option (List Char)) : List (List Char) :=
  [rsyncBin, rsyncFlags, "-v".toList] ++
  (if dryRun then ["-n".toList] else []) ++
  (match sshKey with
   | some k => ["-e".toList, "ssh -i ".toList ++ k]
   | none => [])

/-- The remote destination argument built at the end of `create_backup`:
`'{0}@{1}:{2}'.format(self.__user, self.__host, os.path.join(dest, name))`.
Note the unconditional `@` — a missing user renders as `"None"`. -/
def destArg (user : Option (List Char)) (host dest name : List Char) : List Char :=
  userStr user ++ '@' :: (host ++ ':' :: pathJoin dest name)

/-- The `--exclude-from` arguments appended by `create_backup` when an
exclude file is configured. -/
def excl_args : Option (List Char) → List (List Char)
  | some e => ["--exclude-from=".toList ++ e]
  | none => []

/-- The `--link-dest` arguments appended by `create_backup` when a most
recent prior backup exists. -/
def link_args (dest : List Char) : Option (List Char) → List (List Char)
  | some link => ["--link-dest=".toList ++ pathJoin dest link]
  | none => []

/-- `backup_manager.create_backup` / `backup.create_backup`, up to the
point where the assembled rsync command is executed: returns the argv of
that command.  `none` models a non-return before the command exists: the
listing failing, or the duplicate-name branch (whose `fatal` is called
without its required `exit_code` argument and therefore raises
`TypeError`). -/
def create_backup (user : Option (List Char)) (host dest src : List Char)
    (rsyncBin rsyncFlags : List Char) (exclude sshKey : Option (List Char))
    (pre : List Char) (dryRun : Bool) (now : DateTime) (lsRes : Nat)
    (entries : List (List Char)) : Option (List (List Char)) :=
  let name := generate_backup_name pre now
  match list_dest_backups pre lsRes entries with
  | none => none
  | some backups =>
    if name ∈ backups then none
    else
      some (rsync_cmd rsyncBin rsyncFlags dryRun sshKey ++
        excl_args exclude ++
        link_args dest (most_recent_backup backups) ++
        [src, destArg user host dest name])

/-- Does an argv element carry the `--link-dest` flag? -/
def isLinkDest (s : List Char) : Bool := "--link-dest=".toList.isPrefixOf s

/-! ## Outcomes of the stateful operations -/

/-- How a Python call ends: a normal return, a process exit issued by
`backup_printer.fatal(msg, code)`, or a raised exception
(`TypeError` from calling `fatal` without its required `exit_code`
argument, `NameError` from an undefined variable). -/
inductive POutcome where
  | normal
  | exited (code : Nat)
  | typeError
  | nameError
deriving DecidableEq, Repr

/-- Result of `backup_manager.check_host` / `backup.check_host`:
`retVal` is the Python return value (`none` models Python `None`;
the function has no `return` statement). -/
structure CheckHostResult where
  outcome : POutcome
  retVal : Option Bool
deriving DecidableEq, Repr

/-- `check_host`, given the exit status of `ssh … 'exit 0'`.  On failure
it calls `self.__out.fatal(msg)` — one argument, but
`backup_printer.fatal(self, s, exit_code)` requires two, so the call
raises `TypeError` before anything is written. -/
def check_host (res : Nat) : CheckHostResult :=
  if res ≠ 0 then { outcome := .typeError, retVal := none }
  else { outcome := .normal, retVal := none }

/-- Result of `check_dest`. -/
structure CheckDestResult where
  outcome : POutcome
  /-- was `mkdir -p <dest>` run remotely? -/
  mkdirIssued : Bool
  /-- was `test -w <dest>` run remotely? -/
  writeTestIssued : Bool
  /-- was the does-not-exist info message emitted? -/
  absentReported : Bool
  /-- was "Destination directory is not writable" signalled? -/
  notWritableReported : Bool
deriving DecidableEq, Repr

/-- `backup_manager.check_dest`, given the dry-run flag and the exit
statuses of `test -d`, `mkdir -p` and `test -w`.

Faithful to the source's slips: in the non-dry-run creation branch the
info call reads `outs`, a name that does not exist in this method (the
string is bound to `o`), so a `NameError` is raised before `mkdir` runs;
and the writability exit status is bound to `red` while the subsequent
check reads `res` — still the existence status — so a non-writable
destination is never signalled. -/
def check_dest (dryRun : Bool) (existsRes mkdirRes writeRes : Nat) : CheckDestResult :=
  if existsRes ≠ 0 then
    if dryRun then
      -- info(o.format(dest, '(DRY-RUN)')); fatal(msg, 1) — exits the process
      { outcome := .exited 1, mkdirIssued := false, writeTestIssued := false,
        absentReported := true, notWritableReported := false }
    else
      -- info(outs.format(...)) — `outs` is undefined here: NameError
      { outcome := .nameError, mkdirIssued := false, writeTestIssued := false,
        absentReported := false, notWritableReported := false }
  else
    -- red, _, _ = run_cmd(ssh + ['test -w dest']); if res != 0: fatal(...)
    -- `res` is still the existence status (0 on this path), and the
    -- mis-called one-argument `fatal` would raise TypeError anyway.
    let _red := writeRes
    if existsRes ≠ 0 then
      { outcome := .typeError, mkdirIssued := false, writeTestIssued := true,
        absentReported := false, notWritableReported := false }
    else
      { outcome := .normal, mkdirIssued := false, writeTestIssued := true,
        absentReported := false, notWritableReported := false }

/-- `backup.check_dest` (the `src/backup.py` variant).  Differences from
the manager variant: the message template *is* named `outs`, so the
creation branch works: it reports, runs `mkdir -p`, and on `mkdir`
failure calls the one-argument `fatal` (TypeError); the dry-run branch
returns after reporting.  The `red`/`res` writability slip is the same,
but after a successful `mkdir`, `res` is the `mkdir` status (0), so
non-writability is again never signalled. -/
def check_dest_b (dryRun : Bool) (existsRes mkdirRes writeRes : Nat) : CheckDestResult :=
  if existsRes ≠ 0 then
    if dryRun then
      { outcome := .normal, mkdirIssued := false, writeTestIssued := false,
        absentReported := true, notWritableReported := false }
    else if mkdirRes ≠ 0 then
      { outcome := .typeError, mkdirIssued := true, writeTestIssued := false,
        absentReported := true, notWritableReported := false }
    else
      let _red := writeRes
      { outcome := .normal, mkdirIssued := true, writeTestIssued := true,
        absentReported := true, notWritableReported := false }
  else
    let _red := writeRes
    { outcome := .normal, mkdirIssued := false, writeTestIssued := true,
      absentReported := false, notWritableReported := false }

/-- Result of `remove_backups`. -/
structure RemoveResult where
  outcome : POutcome
  /-- the computed `to_remove` list (`backups.reverse()[num_backups:]`) -/
  toRemove : List (List Char)
  /-- was the single remote `rm -r …` command issued? -/
  rmIssued : Bool
  /-- the paths covered by that command, in order -/
  rmPaths : List (List Char)
  /-- was "Unable to remove backup(s)" written to the error stream? -/
  errorReported : Bool
  /-- count in the final "Successfully removed {n} backup(s)" info, when
  that line is reached -/
  finalInfo : Option Nat
  /-- the Python return value: every `return` in the function is bare and
  the final path falls off the end, so this is always `None` -/
  retVal : Option Nat
deriving DecidableEq, Repr

/-- `backup_manager.remove_backups` / `backup.remove_backups`, given the
configuration, the outcome of the remote `ls`, and the exit status the
remote `rm -r` would report. -/
def remove_backups (pre dest : List Char) (numBackups : Nat) (dryRun : Bool)
    (lsRes : Nat) (entries : List (List Char)) (rmRes : Nat) : RemoveResult :=
  match list_dest_backups pre lsRes entries with
  | none =>
    { outcome := .exited 1, toRemove := [], rmIssued := false, rmPaths := [],
      errorReported := false, finalInfo := none, retVal := none }
  | some backups =>
    if backups.length ≤ numBackups then
      { outcome := .normal, toRemove := [], rmIssued := false, rmPaths := [],
        errorReported := false, finalInfo := none, retVal := none }
    else
      let toRemove := backups.reverse.drop numBackups
      if dryRun then
        { outcome := .normal, toRemove := toRemove, rmIssued := false,
          rmPaths := [], errorReported := false, finalInfo := none, retVal := none }
      else
        { outcome := .normal, toRemove := toRemove, rmIssued := true,
          rmPaths := toRemove.map fun x => pathJoin dest x,
          errorReported := rmRes ≠ 0, finalInfo := some toRemove.length,
          retVal := none }

-- Sanity checks on closed inputs.
example :
    list_dest_backups "test-".toList 0
      ["test-".toList, "rand_0".toList, "test-01-01-2015-12:00:01".toList,
        "test-01-01-2015-12:00:00".toList] =
    some ["test-01-01-2015-12:00:00".toList, "test-01-01-2015-12:00:01".toList] := by
  decide
example :
    search "z".toList "zz01-02-2003-04:05:06".toList = true := by decide
example :
    specFullMatch "z".toList "zz01-02-2003-04:05:06".toList = false := by decide
example :
    pathJoin "/b".toList "x".toList = "/b/x".toList := by decide

/-! ## Arithmetic facts about decimal printing -/

theorem natToCharsAux_zero (fuel : Nat) : natToCharsAux fuel 0 = [] := by
  cases fuel <;> rfl

theorem natToCharsAux_fuel :
    ∀ f1 f2 n : Nat, n ≤ f1 → n ≤ f2 → natToCharsAux f1 n = natToCharsAux f2 n := by
  intro f1
  induction f1 with
  | zero =>
    intro f2 n h1 _
    have hn : n = 0 := Nat.le_zero.mp h1
    subst hn
    rw [natToCharsAux_zero, natToCharsAux_zero]
  | succ f ih =>
    intro f2 n h1 h2
    cases n with
    | zero => rw [natToCharsAux_zero, natToCharsAux_zero]
    | succ m =>
      cases f2 with
      | zero => omega
      | succ g =>
        show natToCharsAux (f + 1) (m + 1) = natToCharsAux (g + 1) (m + 1)
        rw [natToCharsAux, natToCharsAux]
        congr 1
        exact ih g ((m + 1) / 10) (by omega) (by omega)

theorem natChars_rec (n : Nat) (h : 0 < n) :
    natToCharsAux n n = natToCharsAux (n / 10) (n / 10) ++ [digitChar (n % 10)] := by
  cases n with
  | zero => omega
  | succ m =>
    rw [natToCharsAux]
    congr 1
    exact natToCharsAux_fuel m ((m + 1) / 10) ((m + 1) / 10) (by omega) (by omega)

theorem natToChars_eq_four (y : Nat) (h1 : 1000 ≤ y) (h2 : y ≤ 9999) :
    natToChars y = [digitChar (y / 1000), digitChar (y / 100 % 10),
      digitChar (y / 10 % 10), digitChar (y % 10)] := by
  have e1 : y / 10 / 10 = y / 100 := by omega
  have e2 : y / 100 / 10 = y / 1000 := by omega
  have e3 : y / 1000 / 10 = 0 := by omega
  have e4 : y / 1000 % 10 = y / 1000 := by omega
  unfold natToChars
  rw [if_neg (by omega)]
  rw [natChars_rec y (by omega)]
  rw [natChars_rec (y / 10) (by omega), e1]
  rw [natChars_rec (y / 100) (by omega), e2]
  rw [natChars_rec (y / 1000) (by omega), e3, e4, natToCharsAux_zero]
  simp

theorem pad2_eq (n : Nat) (h : n ≤ 99) :
    pad2 n = [digitChar (n / 10), digitChar (n % 10)] := by
  unfold pad2
  by_cases h10 : n < 10
  · rw [if_pos h10]
    have hd : n / 10 = 0 := by omega
    have hm : n % 10 = n := by omega
    by_cases h0 : n = 0
    · subst h0; rw [hd]; decide
    · unfold natToChars
      rw [if_neg h0, natChars_rec n (by omega), hd, hm, natToCharsAux_zero]
      have : digitChar 0 = '0' := by decide
      simp [this]
  · rw [if_neg h10]
    have hd1 : n / 10 / 10 = 0 := by omega
    have hd2 : n / 10 % 10 = n / 10 := by omega
    unfold natToChars
    rw [if_neg (by omega), natChars_rec n (by omega),
      natChars_rec (n / 10) (by omega), hd1, hd2, natToCharsAux_zero]
    simp

theorem toNat_digitChar (k : Nat) (h : k < 10) : (digitChar k).toNat = 48 + k := by
  interval_cases k <;> decide

theorem isDig_digitChar (k : Nat) (h : k < 10) : isDig (digitChar k) = true := by
  interval_cases k <;> decide

theorem digitVal_digitChar (k : Nat) (h : k < 10) : digitVal (digitChar k) = k := by
  interval_cases k <;> decide

/-! ## Behaviour of the strptime directives on canonical two-digit output -/

theorem cand2_digits_pos (lo1 hi1 lo2 hi2 a b : Nat) (ha : a < 10) (hb : b < 10)
    (h1 : lo1 ≤ 48 + a) (h2 : 48 + a ≤ hi1) (h3 : lo2 ≤ 48 + b) (h4 : 48 + b ≤ hi2)
    (rest : List Char) :
    cand2 lo1 hi1 lo2 hi2 (digitChar a :: digitChar b :: rest) = [(a * 10 + b, rest)] := by
  simp only [cand2]
  rw [toNat_digitChar a ha, toNat_digitChar b hb,
    digitVal_digitChar a ha, digitVal_digitChar b hb]
  rw [if_pos]
  simp only [Bool.and_eq_true, decide_eq_true_eq]
  omega

theorem cand2_digits_neg (lo1 hi1 lo2 hi2 a b : Nat) (ha : a < 10) (hb : b < 10)
    (h : 48 + a < lo1 ∨ hi1 < 48 + a ∨ 48 + b < lo2 ∨ hi2 < 48 + b)
    (rest : List Char) :
    cand2 lo1 hi1 lo2 hi2 (digitChar a :: digitChar b :: rest) = [] := by
  simp only [cand2]
  rw [toNat_digitChar a ha, toNat_digitChar b hb]
  rw [if_neg]
  simp only [Bool.and_eq_true, decide_eq_true_eq]
  omega

theorem cand1_digit_pos (lo hi a : Nat) (ha : a < 10) (h1 : lo ≤ 48 + a)
    (h2 : 48 + a ≤ hi) (rest : List Char) :
    cand1 lo hi (digitChar a :: rest) = [(a, rest)] := by
  simp only [cand1]
  rw [toNat_digitChar a ha, digitVal_digitChar a ha]
  rw [if_pos]
  simp only [Bool.and_eq_true, decide_eq_true_eq]
  omega

theorem candM_pad2 (m : Nat) (h1 : 1 ≤ m) (h2 : m ≤ 12) (rest : List Char) :
    ∃ tl, candM (pad2 m ++ rest) = (m, rest) :: tl := by
  rw [pad2_eq m (by omega)]
  have hb : m % 10 < 10 := by omega
  show ∃ tl, candM (digitChar (m / 10) :: digitChar (m % 10) :: rest) = _
  unfold candM
  by_cases hm : 10 ≤ m
  · have e : m / 10 = 1 := by omega
    rw [e, cand2_digits_pos 49 49 48 50 1 (m % 10) (by omega) hb (by omega) (by omega)
      (by omega) (by omega) rest]
    have ev : 1 * 10 + m % 10 = m := by omega
    rw [ev]
    exact ⟨_, rfl⟩
  · have e : m / 10 = 0 := by omega
    have e2 : m % 10 = m := by omega
    rw [e, e2,
      cand2_digits_neg 49 49 48 50 0 m (by omega) (by omega) (by omega) rest,
      cand2_digits_pos 48 48 49 57 0 m (by omega) (by omega) (by omega) (by omega)
        (by omega) (by omega) rest]
    have ev : 0 * 10 + m = m := by omega
    rw [ev]
    exact ⟨_, rfl⟩

theorem candD_pad2 (d : Nat) (h1 : 1 ≤ d) (h2 : d ≤ 31) (rest : List Char) :
    ∃ tl, candD (pad2 d ++ rest) = (d, rest) :: tl := by
  rw [pad2_eq d (by omega)]
  have hb : d % 10 < 10 := by omega
  show ∃ tl, candD (digitChar (d / 10) :: digitChar (d % 10) :: rest) = _
  unfold candD
  by_cases h30 : 30 ≤ d
  · have e : d / 10 = 3 := by omega
    rw [e, cand2_digits_pos 51 51 48 49 3 (d % 10) (by omega) hb (by omega) (by omega)
      (by omega) (by omega) rest]
    have ev : 3 * 10 + d % 10 = d := by omega
    rw [ev]
    exact ⟨_, rfl⟩
  · by_cases h10 : 10 ≤ d
    · have ha : d / 10 < 10 := by omega
      rw [cand2_digits_neg 51 51 48 49 (d / 10) (d % 10) ha hb (by omega) rest,
        cand2_digits_pos 49 50 48 57 (d / 10) (d % 10) ha hb (by omega) (by omega)
          (by omega) (by omega) rest]
      have ev : d / 10 * 10 + d % 10 = d := by omega
      rw [ev]
      exact ⟨_, rfl⟩
    · have e : d / 10 = 0 := by omega
      have e2 : d % 10 = d := by omega
      rw [e, e2,
        cand2_digits_neg 51 51 48 49 0 d (by omega) (by omega) (by omega) rest,
        cand2_digits_neg 49 50 48 57 0 d (by omega) (by omega) (by omega) rest,
        cand2_digits_pos 48 48 49 57 0 d (by omega) (by omega) (by omega) (by omega)
          (by omega) (by omega) rest]
      have ev : 0 * 10 + d = d := by omega
      rw [ev]
      exact ⟨_, rfl⟩

theorem candH_pad2 (h : Nat) (h2 : h ≤ 23) (rest : List Char) :
    ∃ tl, candH (pad2 h ++ rest) = (h, rest) :: tl := by
  rw [pad2_eq h (by omega)]
  have hb : h % 10 < 10 := by omega
  show ∃ tl, candH (digitChar (h / 10) :: digitChar (h % 10) :: rest) = _
  unfold candH
  by_cases h20 : 20 ≤ h
  · have e : h / 10 = 2 := by omega
    rw [e, cand2_digits_pos 50 50 48 51 2 (h % 10) (by omega) hb (by omega) (by omega)
      (by omega) (by omega) rest]
    have ev : 2 * 10 + h % 10 = h := by omega
    rw [ev]
    exact ⟨_, rfl⟩
  · have ha : h / 10 < 10 := by omega
    rw [cand2_digits_neg 50 50 48 51 (h / 10) (h % 10) ha hb (by omega) rest,
      cand2_digits_pos 48 49 48 57 (h / 10) (h % 10) ha hb (by omega) (by omega)
        (by omega) (by omega) rest]
    have ev : h / 10 * 10 + h % 10 = h := by omega
    rw [ev]
    exact ⟨_, rfl⟩

theorem candMin_pad2 (mi : Nat) (h2 : mi ≤ 59) (rest : List Char) :
    ∃ tl, candMin (pad2 mi ++ rest) = (mi, rest) :: tl := by
  rw [pad2_eq mi (by omega)]
  have hb : mi % 10 < 10 := by omega
  show ∃ tl, candMin (digitChar (mi / 10) :: digitChar (mi % 10) :: rest) = _
  unfold candMin
  rw [cand2_digits_pos 48 53 48 57 (mi / 10) (mi % 10) (by omega) hb (by omega)
    (by omega) (by omega) (by omega) rest]
  have ev : mi / 10 * 10 + mi % 10 = mi := by omega
  rw [ev]
  exact ⟨_, rfl⟩

theorem candS_pad2 (s : Nat) (h2 : s ≤ 59) (rest : List Char) :
    ∃ tl, candS (pad2 s ++ rest) = (s, rest) :: tl := by
  rw [pad2_eq s (by omega)]
  have hb : s % 10 < 10 := by omega
  show ∃ tl, candS (digitChar (s / 10) :: digitChar (s % 10) :: rest) = _
  unfold candS
  rw [cand2_digits_neg 54 54 48 49 (s / 10) (s % 10) (by omega) hb (by omega) rest,
    cand2_digits_pos 48 53 48 57 (s / 10) (s % 10) (by omega) hb (by omega)
      (by omega) (by omega) (by omega) rest]
  have ev : s / 10 * 10 + s % 10 = s := by omega
  rw [ev]
  exact ⟨_, rfl⟩

theorem candY_natToChars (y : Nat) (h1 : 1000 ≤ y) (h2 : y ≤ 9999) (rest : List Char) :
    candY (natToChars y ++ rest) = [(y, rest)] := by
  rw [natToChars_eq_four y h1 h2]
  show candY (digitChar (y / 1000) :: digitChar (y / 100 % 10) ::
    digitChar (y / 10 % 10) :: digitChar (y % 10) :: rest) = _
  simp only [candY]
  rw [isDig_digitChar (y / 1000) (by omega), isDig_digitChar (y / 100 % 10) (by omega),
    isDig_digitChar (y / 10 % 10) (by omega), isDig_digitChar (y % 10) (by omega)]
  rw [digitVal_digitChar (y / 1000) (by omega), digitVal_digitChar (y / 100 % 10) (by omega),
    digitVal_digitChar (y / 10 % 10) (by omega), digitVal_digitChar (y % 10) (by omega)]
  have ev : ((y / 1000 * 10 + y / 100 % 10) * 10 + y / 10 % 10) * 10 + y % 10 = y := by
    omega
  rw [ev]
  simp

/-! ## The round trip `strptime ∘ strftime` -/

theorem findSome?_cons_some {α β : Type} (f : α → Option β) (a : α) (tl : List α)
    (b : β) (h : f a = some b) : List.findSome? f (a :: tl) = some b := by
  simp [List.findSome?, h]

theorem lit_self (c : Char) (r : List Char) : lit c (c :: r) = some r := by
  simp [lit]

theorem daysInMonth_le (y m : Nat) : daysInMonth y m ≤ 31 := by
  unfold daysInMonth
  split_ifs <;> omega

theorem strptime_strftime (t : DateTime) (hv : t.valid = true) (hy : 1000 ≤ t.year) :
    strptimeFmt (strftimeFmt t) = some t := by
  obtain ⟨y, mo, d, h, mi, s⟩ := t
  unfold DateTime.valid at hv
  simp only [Bool.and_eq_true, decide_eq_true_eq] at hv
  obtain ⟨⟨⟨⟨⟨⟨⟨⟨hy1, hy2⟩, hm1⟩, hm2⟩, hd1⟩, hd2⟩, hh⟩, hmi⟩, hs⟩ := hv
  have hy' : 1000 ≤ y := hy
  have hd31 : d ≤ 31 := le_trans hd2 (daysInMonth_le y mo)
  have hmain : matchFmt (strftimeFmt ⟨y, mo, d, h, mi, s⟩) =
      some (⟨y, mo, d, h, mi, s⟩, []) := by
    unfold strftimeFmt matchFmt
    obtain ⟨tlM, hM⟩ := candM_pad2 mo hm1 hm2 ('-' :: (pad2 d ++ '-' ::
      (natToChars y ++ '-' :: (pad2 h ++ ':' :: (pad2 mi ++ ':' :: pad2 s)))))
    rw [hM]
    refine findSome?_cons_some _ _ _ _ ?_
    rw [lit_self]
    simp only [Option.some_bind]
    obtain ⟨tlD, hD⟩ := candD_pad2 d hd1 hd31 ('-' ::
      (natToChars y ++ '-' :: (pad2 h ++ ':' :: (pad2 mi ++ ':' :: pad2 s))))
    rw [hD]
    refine findSome?_cons_some _ _ _ _ ?_
    rw [lit_self]
    simp only [Option.some_bind]
    rw [candY_natToChars y hy' hy2 ('-' :: (pad2 h ++ ':' :: (pad2 mi ++ ':' :: pad2 s)))]
    refine findSome?_cons_some _ _ _ _ ?_
    rw [lit_self]
    simp only [Option.some_bind]
    obtain ⟨tlH, hH⟩ := candH_pad2 h hh (':' :: (pad2 mi ++ ':' :: pad2 s))
    rw [hH]
    refine findSome?_cons_some _ _ _ _ ?_
    rw [lit_self]
    simp only [Option.some_bind]
    obtain ⟨tlMi, hMi⟩ := candMin_pad2 mi hmi (':' :: pad2 s)
    rw [hMi]
    refine findSome?_cons_some _ _ _ _ ?_
    rw [lit_self]
    simp only [Option.some_bind]
    obtain ⟨tlS, hS⟩ := candS_pad2 s hs []
    rw [List.append_nil] at hS
    rw [hS]
    exact findSome?_cons_some _ _ _ _ rfl
  unfold strptimeFmt
  rw [hmain]
  have hv' : DateTime.valid ⟨y, mo, d, h, mi, s⟩ = true := by
    unfold DateTime.valid
    simp only [Bool.and_eq_true, decide_eq_true_eq]
    exact ⟨⟨⟨⟨⟨⟨⟨⟨hy1, hy2⟩, hm1⟩, hm2⟩, hd1⟩, hd2⟩, hh⟩, hmi⟩, hs⟩
  simp [hv']

theorem valid_bounds (t : DateTime) (hv : t.valid = true) :
    1 ≤ t.year ∧ t.year ≤ 9999 ∧ 1 ≤ t.month ∧ t.month ≤ 12 ∧ 1 ≤ t.day ∧
    t.day ≤ 31 ∧ t.hour ≤ 23 ∧ t.minute ≤ 59 ∧ t.second ≤ 59 := by
  unfold DateTime.valid at hv
  simp only [Bool.and_eq_true, decide_eq_true_eq] at hv
  have := daysInMonth_le t.year t.month
  omega

theorem lstrip_generate (pre : List Char) (t : DateTime)
    (hpre : pre.all (fun c => !isDig c) = true)
    (hm1 : 1 ≤ t.month) (hm2 : t.month ≤ 12) :
    lstrip pre (generate_backup_name pre t) = strftimeFmt t := by
  unfold generate_backup_name lstrip
  rw [List.dropWhile_append_of_pos (by
    intro a ha
    simpa [List.contains] using List.elem_iff.mpr ha)]
  unfold strftimeFmt
  rw [pad2_eq t.month (by omega)]
  simp only [List.cons_append, List.nil_append]
  rw [List.dropWhile_cons, if_neg]
  intro hct
  have hmem : digitChar (t.month / 10) ∈ pre :=
    List.elem_iff.mp (by simpa [List.contains] using hct)
  have hnd := (List.all_eq_true.mp hpre) _ hmem
  rw [isDig_digitChar (t.month / 10) (by omega)] at hnd
  simp at hnd

/-- C1 (amended).  For every generation time (any valid `datetime` with a
four-digit year, as wall-clock times are) and every configured prefix
that contains no decimal digit, stripping the prefix from the generated
snapshot name with `lstrip` and re-parsing the remainder with
`%m-%d-%Y-%H:%M:%S` yields the timestamp used to generate the name
(truncated to whole seconds).  The no-digit restriction is forced:
`str.lstrip` removes a character *set*, so a prefix containing a digit
can eat leading digits of the timestamp (see the counterexample). -/
theorem generated_name_roundtrip (pre : List Char) (t : DateTime)
    (hpre : pre.all (fun c => !isDig c) = true)
    (hv : t.valid = true) (hy : 1000 ≤ t.year) :
    strptimeFmt (lstrip pre (generate_backup_name pre t)) = some t := by
  have hb := valid_bounds t hv
  rw [lstrip_generate pre t hpre (by omega) (by omega)]
  exact strptime_strftime t hv hy

/-- C1 (counterexample to the claim as stated).  With the digit-containing
prefix `"1"` and generation time 10-05-2020 04:05:06 (a perfectly valid
wall-clock time), `lstrip` eats the leading `1` of the month `10`, and
re-parsing the remainder `0-05-2020-04:05:06` raises `ValueError`
instead of returning the original timestamp. -/
theorem generated_name_roundtrip_cex :
    (⟨2020, 10, 5, 4, 5, 6⟩ : DateTime).valid = true ∧
    lstrip "1".toList (generate_backup_name "1".toList ⟨2020, 10, 5, 4, 5, 6⟩) =
      "0-05-2020-04:05:06".toList ∧
    strptimeFmt (lstrip "1".toList
      (generate_backup_name "1".toList ⟨2020, 10, 5, 4, 5, 6⟩)) = none := by
  decide

/-- Witness for C1's amended round trip at a concrete prefix and time. -/
theorem generated_name_roundtrip_wit :
    strptimeFmt (lstrip "bk-".toList
      (generate_backup_name "bk-".toList ⟨2015, 1, 1, 12, 0, 0⟩)) =
    some ⟨2015, 1, 1, 12, 0, 0⟩ :=
  generated_name_roundtrip "bk-".toList ⟨2015, 1, 1, 12, 0, 0⟩
    (by decide) (by decide) (by decide)

/-! ## Structure of successful listings -/

theorem list_dest_backups_eq (pre : List Char) (lsRes : Nat)
    (entries l : List (List Char))
    (h : list_dest_backups pre lsRes entries = some l) :
    lsRes = 0 ∧
    l = (entries.filter fun f => search pre f).insertionSort (keyRel pre) ∧
    ∀ x ∈ entries.filter (fun f => search pre f), (nameKey pre x).isSome = true := by
  unfold list_dest_backups at h
  by_cases h0 : lsRes ≠ 0
  · rw [if_pos h0] at h; cases h
  · rw [if_neg h0] at h
    unfold sort_backup_names at h
    split at h
    · next hall =>
      injection h with h
      exact ⟨by omega, h.symm, List.all_eq_true.mp hall⟩
    · cases h

theorem list_dest_backups_sorted (pre : List Char) (lsRes : Nat)
    (entries l : List (List Char))
    (h : list_dest_backups pre lsRes entries = some l) :
    l.Sorted (keyRel pre) := by
  obtain ⟨-, hl, -⟩ := list_dest_backups_eq pre lsRes entries l h
  rw [hl]
  exact List.sorted_insertionSort (keyRel pre) _

theorem list_dest_backups_mem (pre : List Char) (lsRes : Nat)
    (entries l : List (List Char))
    (h : list_dest_backups pre lsRes entries = some l) :
    ∀ x, x ∈ l ↔ x ∈ entries ∧ search pre x = true := by
  obtain ⟨-, hl, -⟩ := list_dest_backups_eq pre lsRes entries l h
  intro x
  rw [hl, List.mem_insertionSort, List.mem_filter]

/-! ## The pattern needs at least `|prefix| + 19` characters -/

theorem dropLit_length :
    ∀ p s r : List Char, dropLit p s = some r → s.length = p.length + r.length := by
  intro p
  induction p with
  | nil =>
    intro s r h
    injection h with h
    simp [h]
  | cons c p ih =>
    intro s r h
    cases s with
    | nil => cases h
    | cons x s =>
      unfold dropLit at h
      split at h
      · have := ih s r h
        simp [this]
        omega
      · cases h

theorem takeDigits_length :
    ∀ (n : Nat) (s r : List Char), takeDigits n s = some r → s.length = n + r.length := by
  intro n
  induction n with
  | zero =>
    intro s r h
    injection h with h
    simp [h]
  | succ m ih =>
    intro s r h
    cases s with
    | nil => cases h
    | cons x s =>
      unfold takeDigits at h
      split at h
      · have := ih s r h
        simp [this]
        omega
      · cases h

theorem lit_length (c : Char) (s r : List Char) (h : lit c s = some r) :
    s.length = r.length + 1 := by
  cases s with
  | nil => cases h
  | cons x s =>
    simp only [lit] at h
    split at h
    · injection h with h
      simp [← h]
    · cases h

theorem matchPatAt_length (pre s : List Char) (h : matchPatAt pre s = true) :
    pre.length + 19 ≤ s.length := by
  unfold matchPatAt at h
  rw [Option.isSome_iff_exists] at h
  obtain ⟨r, hr⟩ := h
  obtain ⟨a9, h9c, hF⟩ := Option.bind_eq_some.mp hr
  obtain ⟨a11, h1011, h12⟩ := Option.bind_eq_some.mp hF
  obtain ⟨a10, h10, h11⟩ := Option.bind_eq_some.mp h1011
  obtain ⟨a8, h8c, h9⟩ := Option.bind_eq_some.mp h9c
  obtain ⟨a7, h7c, h8⟩ := Option.bind_eq_some.mp h8c
  obtain ⟨a6, h6c, h7⟩ := Option.bind_eq_some.mp h7c
  obtain ⟨a5, h5c, h6⟩ := Option.bind_eq_some.mp h6c
  obtain ⟨a4, h4c, h5⟩ := Option.bind_eq_some.mp h5c
  obtain ⟨a3, h3c, h4⟩ := Option.bind_eq_some.mp h4c
  obtain ⟨a2, h2c, h3⟩ := Option.bind_eq_some.mp h3c
  obtain ⟨a1, h1, h2⟩ := Option.bind_eq_some.mp h2c
  have e1 := dropLit_length pre s a1 h1
  have e2 := takeDigits_length 2 a1 a2 h2
  have e3 := lit_length '-' a2 a3 h3
  have e4 := takeDigits_length 2 a3 a4 h4
  have e5 := lit_length '-' a4 a5 h5
  have e6 := takeDigits_length 4 a5 a6 h6
  have e7 := lit_length '-' a6 a7 h7
  have e8 := takeDigits_length 2 a7 a8 h8
  have e9 := lit_length ':' a8 a9 h9
  have e10 := takeDigits_length 2 a9 a10 h10
  have e11 := lit_length ':' a10 a11 h11
  have e12 := takeDigits_length 2 a11 r h12
  omega

theorem search_imp_suffix :
    ∀ (pre s : List Char), search pre s = true →
      ∃ t : List Char, t.IsSuffix s ∧ matchPatAt pre t = true := by
  intro pre s
  induction s with
  | nil =>
    intro h
    exact ⟨[], List.suffix_rfl, h⟩
  | cons a t ih =>
    intro h
    rw [search, Bool.or_eq_true] at h
    rcases h with h | h
    · exact ⟨a :: t, List.suffix_rfl, h⟩
    · obtain ⟨u, hsuf, hm⟩ := ih h
      exact ⟨u, hsuf.trans (List.suffix_cons a t), hm⟩

theorem search_self_eq_false (pre : List Char) : search pre pre = false := by
  by_contra h
  rw [Bool.not_eq_false] at h
  obtain ⟨u, hsuf, hm⟩ := search_imp_suffix pre pre h
  have h1 := matchPatAt_length pre u hm
  have h2 := hsuf.length_le
  omega

/-- C7 (amended).  A successful `list_dest_backups` returns exactly the
listed entries that *contain* (unanchored `re.search`) a match of
`<prefix>\d{2}-\d{2}-\d{4}-\d{2}:\d{2}:\d{2}`; an entry named just the
prefix is still excluded (the pattern needs 19 further characters), but
entries with extra characters around a match are *included* — the
anchored reading of the original claim is refuted by the
counterexample. -/
theorem list_dest_backups_members (pre : List Char) (lsRes : Nat)
    (entries l : List (List Char))
    (h : list_dest_backups pre lsRes entries = some l) :
    (∀ x, x ∈ l ↔ x ∈ entries ∧ search pre x = true) ∧ pre ∉ l := by
  have hmem := list_dest_backups_mem pre lsRes entries l h
  refine ⟨hmem, ?_⟩
  intro hin
  have := (hmem pre).mp hin
  rw [search_self_eq_false pre] at this
  cases this.2

/-- C7 (counterexample to the anchored reading).  With prefix `"z"`, the
entry `zz01-02-2003-04:05:06` is not a full match of
`^z\d{2}-…$` (extra leading character), yet `re.search` finds the
pattern at offset 1, the entry survives the filter, `lstrip('z')`
strips both `z`s, the timestamp parses, and the entry is returned. -/
theorem list_dest_backups_members_cex :
    list_dest_backups "z".toList 0
      ["zz01-02-2003-04:05:06".toList, "z01-01-2003-04:05:06".toList] =
      some ["z01-01-2003-04:05:06".toList, "zz01-02-2003-04:05:06".toList] ∧
    specFullMatch "z".toList "zz01-02-2003-04:05:06".toList = false := by
  decide

/-- Witness for C7's amended theorem on a mixed listing. -/
theorem list_dest_backups_members_wit :
    (∀ x, x ∈ ["test-01-01-2015-12:00:00".toList, "test-01-01-2015-12:00:01".toList] ↔
      x ∈ ["test-01-01-2015-12:00:01".toList, "test-".toList, "rand_0".toList,
        "test-01-01-2015-12:00:00".toList] ∧ search "test-".toList x = true) ∧
    "test-".toList ∉ ["test-01-01-2015-12:00:00".toList, "test-01-01-2015-12:00:01".toList] :=
  list_dest_backups_members "test-".toList 0
    ["test-01-01-2015-12:00:01".toList, "test-".toList, "rand_0".toList,
      "test-01-01-2015-12:00:00".toList]
    ["test-01-01-2015-12:00:00".toList, "test-01-01-2015-12:00:01".toList]
    (by decide)

/-! ## Normal forms of `remove_backups` -/

theorem remove_backups_le (pre dest : List Char) (K : Nat) (dryRun : Bool)
    (lsRes rmRes : Nat) (entries l : List (List Char))
    (hls : list_dest_backups pre lsRes entries = some l) (hle : l.length ≤ K) :
    remove_backups pre dest K dryRun lsRes entries rmRes =
      { outcome := .normal, toRemove := [], rmIssued := false, rmPaths := [],
        errorReported := false, finalInfo := none, retVal := none } := by
  simp only [remove_backups, hls]
  rw [if_pos hle]

theorem remove_backups_gt (pre dest : List Char) (K : Nat)
    (lsRes rmRes : Nat) (entries l : List (List Char))
    (hls : list_dest_backups pre lsRes entries = some l) (hgt : K < l.length) :
    remove_backups pre dest K false lsRes entries rmRes =
      { outcome := .normal, toRemove := (l.take (l.length - K)).reverse,
        rmIssued := true,
        rmPaths := ((l.take (l.length - K)).reverse).map fun x => pathJoin dest x,
        errorReported := rmRes ≠ 0, finalInfo := some (l.length - K),
        retVal := none } := by
  simp only [remove_backups, hls]
  rw [if_neg (by omega : ¬l.length ≤ K)]
  rw [List.drop_reverse]
  have hX : ((l.take (l.length - K)).reverse).length = l.length - K := by
    simp
  simp only [Bool.false_eq_true, if_false, hX]

theorem remove_backups_dry (pre dest : List Char) (K : Nat)
    (lsRes rmRes : Nat) (entries l : List (List Char))
    (hls : list_dest_backups pre lsRes entries = some l) (hgt : K < l.length) :
    remove_backups pre dest K true lsRes entries rmRes =
      { outcome := .normal, toRemove := (l.take (l.length - K)).reverse,
        rmIssued := false, rmPaths := [], errorReported := false,
        finalInfo := none, retVal := none } := by
  simp only [remove_backups, hls]
  rw [if_neg (by omega : ¬l.length ≤ K)]
  rw [List.drop_reverse]
  simp only [if_true]

/-- C2.  For a successful listing `l` (sorted ascending, oldest first)
with `N = l.length` and retention limit `K`: if `N ≤ K` nothing is
targeted and no removal command is issued; if `N > K` (and not a dry
run) a single `rm` covers exactly the `N − K` chronologically oldest
snapshots — the first `N − K` entries of the ascending listing — and the
`K` newest (the remaining suffix) are untouched. -/
theorem remove_backups_retention (pre dest : List Char) (K : Nat) (dryRun : Bool)
    (lsRes rmRes : Nat) (entries l : List (List Char))
    (hls : list_dest_backups pre lsRes entries = some l) :
    (l.length ≤ K →
      (remove_backups pre dest K dryRun lsRes entries rmRes).toRemove = [] ∧
      (remove_backups pre dest K dryRun lsRes entries rmRes).rmIssued = false) ∧
    (K < l.length →
      (remove_backups pre dest K dryRun lsRes entries rmRes).toRemove =
        (l.take (l.length - K)).reverse ∧
      (∀ x ∈ l.take (l.length - K), ∀ y ∈ l.drop (l.length - K), keyRel pre x y) ∧
      (l.drop (l.length - K)).length = K ∧
      (dryRun = false →
        (remove_backups pre dest K dryRun lsRes entries rmRes).rmIssued = true ∧
        (remove_backups pre dest K dryRun lsRes entries rmRes).rmPaths =
          ((l.take (l.length - K)).reverse).map fun x => pathJoin dest x)) := by
  have hsorted := list_dest_backups_sorted pre lsRes entries l hls
  constructor
  · intro hle
    rw [remove_backups_le pre dest K dryRun lsRes rmRes entries l hls hle]
    exact ⟨rfl, rfl⟩
  · intro hgt
    refine ⟨?_, ?_, ?_, ?_⟩
    · cases dryRun
      · rw [remove_backups_gt pre dest K lsRes rmRes entries l hls hgt]
      · rw [remove_backups_dry pre dest K lsRes rmRes entries l hls hgt]
    · intro x hx y hy
      exact hsorted.rel_of_mem_take_of_mem_drop hx hy
    · simp
      omega
    · intro hdf
      subst hdf
      rw [remove_backups_gt pre dest K lsRes rmRes entries l hls hgt]
      exact ⟨rfl, rfl⟩

/-- Witness for C2: three snapshots, retention 2 — the single oldest one
is targeted, the two newest are kept. -/
theorem remove_backups_retention_wit :
    (([ "01-01-2015-12:00:00".toList, "01-01-2015-12:00:01".toList,
        "01-01-2015-12:00:02".toList ] : List (List Char)).length ≤ 2 →
      (remove_backups [] "/b".toList 2 false 0
        ["01-01-2015-12:00:01".toList, "01-01-2015-12:00:00".toList,
          "01-01-2015-12:00:02".toList] 0).toRemove = [] ∧
      (remove_backups [] "/b".toList 2 false 0
        ["01-01-2015-12:00:01".toList, "01-01-2015-12:00:00".toList,
          "01-01-2015-12:00:02".toList] 0).rmIssued = false) ∧
    (2 < ([ "01-01-2015-12:00:00".toList, "01-01-2015-12:00:01".toList,
        "01-01-2015-12:00:02".toList ] : List (List Char)).length →
      (remove_backups [] "/b".toList 2 false 0
        ["01-01-2015-12:00:01".toList, "01-01-2015-12:00:00".toList,
          "01-01-2015-12:00:02".toList] 0).toRemove =
        (([ "01-01-2015-12:00:00".toList, "01-01-2015-12:00:01".toList,
          "01-01-2015-12:00:02".toList ] : List (List Char)).take
            (([ "01-01-2015-12:00:00".toList, "01-01-2015-12:00:01".toList,
              "01-01-2015-12:00:02".toList ] : List (List Char)).length - 2)).reverse ∧
      (∀ x ∈ ([ "01-01-2015-12:00:00".toList, "01-01-2015-12:00:01".toList,
          "01-01-2015-12:00:02".toList ] : List (List Char)).take
            (([ "01-01-2015-12:00:00".toList, "01-01-2015-12:00:01".toList,
              "01-01-2015-12:00:02".toList ] : List (List Char)).length - 2),
        ∀ y ∈ ([ "01-01-2015-12:00:00".toList, "01-01-2015-12:00:01".toList,
          "01-01-2015-12:00:02".toList ] : List (List Char)).drop
            (([ "01-01-2015-12:00:00".toList, "01-01-2015-12:00:01".toList,
              "01-01-2015-12:00:02".toList ] : List (List Char)).length - 2),
        keyRel [] x y) ∧
      (([ "01-01-2015-12:00:00".toList, "01-01-2015-12:00:01".toList,
        "01-01-2015-12:00:02".toList ] : List (List Char)).drop
          (([ "01-01-2015-12:00:00".toList, "01-01-2015-12:00:01".toList,
            "01-01-2015-12:00:02".toList ] : List (List Char)).length - 2)).length = 2 ∧
      (false = false →
        (remove_backups [] "/b".toList 2 false 0
          ["01-01-2015-12:00:01".toList, "01-01-2015-12:00:00".toList,
            "01-01-2015-12:00:02".toList] 0).rmIssued = true ∧
        (remove_backups [] "/b".toList 2 false 0
          ["01-01-2015-12:00:01".toList, "01-01-2015-12:00:00".toList,
            "01-01-2015-12:00:02".toList] 0).rmPaths =
          ((([ "01-01-2015-12:00:00".toList, "01-01-2015-12:00:01".toList,
            "01-01-2015-12:00:02".toList ] : List (List Char)).take
              (([ "01-01-2015-12:00:00".toList, "01-01-2015-12:00:01".toList,
                "01-01-2015-12:00:02".toList ] : List (List Char)).length - 2)).reverse).map
            fun x => pathJoin "/b".toList x)) :=
  remove_backups_retention [] "/b".toList 2 false 0 0
    ["01-01-2015-12:00:01".toList, "01-01-2015-12:00:00".toList,
      "01-01-2015-12:00:02".toList]
    ["01-01-2015-12:00:00".toList, "01-01-2015-12:00:01".toList,
      "01-01-2015-12:00:02".toList]
    (by decide)

/-- C10.  When the listing succeeds with more snapshots than the limit
and the remote `rm -r` exits non-zero, `remove_backups` writes the
failure to the error stream, still emits its final success report
counting all targeted snapshots, and returns normally (the error report
and the final info line are unconditional on the removal's exit status;
nothing is raised). -/
theorem remove_backups_tolerates_rm_failure (pre dest : List Char) (K : Nat)
    (lsRes rmRes : Nat) (entries l : List (List Char))
    (hls : list_dest_backups pre lsRes entries = some l)
    (hgt : K < l.length) (hrm : rmRes ≠ 0) :
    (remove_backups pre dest K false lsRes entries rmRes).errorReported = true ∧
    (remove_backups pre dest K false lsRes entries rmRes).outcome = POutcome.normal ∧
    (remove_backups pre dest K false lsRes entries rmRes).finalInfo =
      some (l.length - K) ∧
    (remove_backups pre dest K false lsRes entries rmRes).retVal = none := by
  rw [remove_backups_gt pre dest K lsRes rmRes entries l hls hgt]
  refine ⟨?_, rfl, rfl, rfl⟩
  simp [hrm]

/-- Witness for C10: two snapshots, retention 1, `rm` exiting 1. -/
theorem remove_backups_tolerates_rm_failure_wit :
    (remove_backups [] "/b".toList 1 false 0
      ["01-01-2015-12:00:00".toList, "01-01-2015-12:00:01".toList] 1).errorReported =
      true ∧
    (remove_backups [] "/b".toList 1 false 0
      ["01-01-2015-12:00:00".toList, "01-01-2015-12:00:01".toList] 1).outcome =
      POutcome.normal ∧
    (remove_backups [] "/b".toList 1 false 0
      ["01-01-2015-12:00:00".toList, "01-01-2015-12:00:01".toList] 1).finalInfo =
      some (([ "01-01-2015-12:00:00".toList,
        "01-01-2015-12:00:01".toList ] : List (List Char)).length - 1) ∧
    (remove_backups [] "/b".toList 1 false 0
      ["01-01-2015-12:00:00".toList, "01-01-2015-12:00:01".toList] 1).retVal = none :=
  remove_backups_tolerates_rm_failure [] "/b".toList 1 0 1
    ["01-01-2015-12:00:00".toList, "01-01-2015-12:00:01".toList]
    ["01-01-2015-12:00:00".toList, "01-01-2015-12:00:01".toList]
    (by decide) (by decide) (by decide)

/-! ## `create_backup` and `--link-dest` -/

theorem rel_getLast_of_sorted {α : Type} {r : α → α → Prop} [IsRefl α r] :
    ∀ (l : List α), l.Sorted r → ∀ (hne : l ≠ []) (x : α), x ∈ l → r x (l.getLast hne)
  | [] => by intro _ hne; exact absurd rfl hne
  | [a] => by
    intro _ _ x hx
    rw [List.mem_singleton] at hx
    subst hx
    exact refl_of r x
  | a :: b :: t => by
    intro hs hne x hx
    rw [List.sorted_cons] at hs
    obtain ⟨ha, hrest⟩ := hs
    have hne2 : b :: t ≠ [] := by simp
    have hgl : (a :: b :: t).getLast hne = (b :: t).getLast hne2 :=
      List.getLast_cons hne2
    rcases List.mem_cons.mp hx with hxa | hxm
    · subst hxa
      rw [hgl]
      exact ha _ (List.getLast_mem hne2)
    · rw [hgl]
      exact rel_getLast_of_sorted (b :: t) hrest hne2 x hxm

theorem isPrefixOf_append_self (p t : List Char) : p.isPrefixOf (p ++ t) = true := by
  induction p with
  | nil => simp
  | cons c p ih => simpa [List.isPrefixOf] using ih

theorem isLinkDest_link (t : List Char) :
    isLinkDest ("--link-dest=".toList ++ t) = true :=
  isPrefixOf_append_self "--link-dest=".toList t

theorem isLinkDest_ssh_arg (k : List Char) :
    isLinkDest ('s' :: 's' :: 'h' :: ' ' :: '-' :: 'i' :: ' ' :: k) = false := rfl

theorem isLinkDest_v : isLinkDest ['-', 'v'] = false := by decide

theorem isLinkDest_n : isLinkDest ['-', 'n'] = false := by decide

theorem isLinkDest_e : isLinkDest ['-', 'e'] = false := by decide

theorem isLinkDest_exclude_arg (e : List Char) :
    isLinkDest ("--exclude-from=".toList ++ e) = false := rfl

theorem countP_rsync_cmd (rsyncBin rsyncFlags : List Char) (dryRun : Bool)
    (sshKey : Option (List Char)) (hBin : isLinkDest rsyncBin = false)
    (hFlags : isLinkDest rsyncFlags = false) :
    (rsync_cmd rsyncBin rsyncFlags dryRun sshKey).countP isLinkDest = 0 := by
  cases dryRun <;> rcases sshKey with _ | k <;>
    simp [rsync_cmd, List.countP_cons, List.countP_append, List.countP_nil,
      hBin, hFlags, isLinkDest_v, isLinkDest_n, isLinkDest_e, isLinkDest_ssh_arg]

theorem countP_excl_args (exclude : Option (List Char)) :
    (excl_args exclude).countP isLinkDest = 0 := by
  rcases exclude with _ | e
  · rfl
  · show List.countP isLinkDest ["--exclude-from=".toList ++ e] = 0
    rw [List.countP_cons, List.countP_nil, isLinkDest_exclude_arg]
    simp

theorem countP_link_args_some (dest link : List Char) :
    (link_args dest (some link)).countP isLinkDest = 1 := by
  show List.countP isLinkDest ["--link-dest=".toList ++ pathJoin dest link] = 1
  rw [List.countP_cons, List.countP_nil, isLinkDest_link]
  simp

theorem create_backup_eq (user : Option (List Char))
    (host dest src rsyncBin rsyncFlags : List Char)
    (exclude sshKey : Option (List Char)) (pre : List Char) (dryRun : Bool)
    (now : DateTime) (lsRes : Nat) (entries l cmd : _)
    (hls : list_dest_backups pre lsRes entries = some l)
    (hcmd : create_backup user host dest src rsyncBin rsyncFlags exclude sshKey pre
      dryRun now lsRes entries = some cmd) :
    generate_backup_name pre now ∉ l ∧
    cmd = rsync_cmd rsyncBin rsyncFlags dryRun sshKey ++
      excl_args exclude ++
      link_args dest (most_recent_backup l) ++
      [src, destArg user host dest (generate_backup_name pre now)] := by
  simp only [create_backup, hls] at hcmd
  by_cases hdup : generate_backup_name pre now ∈ l
  · rw [if_pos hdup] at hcmd
    cases hcmd
  · rw [if_neg hdup] at hcmd
    injection hcmd with hcmd
    exact ⟨hdup, hcmd.symm⟩

/-- C8.  When the destination listing holds no prior snapshot, the
assembled rsync command contains no `--link-dest` argument (full
transfer); when it holds at least one, the command contains exactly one
`--link-dest` argument whose value is the destination path joined with
the chronologically most recent (last, maximal-key) listed snapshot.
The `isLinkDest … = false` hypotheses state that the configured binary,
flags, source and destination-target strings do not themselves start
with `--link-dest=` (true of any real configuration). -/
theorem create_backup_link_dest (user : Option (List Char))
    (host dest src rsyncBin rsyncFlags : List Char)
    (exclude sshKey : Option (List Char)) (pre : List Char) (dryRun : Bool)
    (now : DateTime) (lsRes : Nat) (entries l cmd : _)
    (hls : list_dest_backups pre lsRes entries = some l)
    (hcmd : create_backup user host dest src rsyncBin rsyncFlags exclude sshKey pre
      dryRun now lsRes entries = some cmd)
    (hBin : isLinkDest rsyncBin = false) (hFlags : isLinkDest rsyncFlags = false)
    (hSrc : isLinkDest src = false)
    (hDest : isLinkDest (destArg user host dest (generate_backup_name pre now)) = false) :
    (l = [] → cmd.countP isLinkDest = 0) ∧
    ∀ hne : l ≠ [], cmd.countP isLinkDest = 1 ∧
      ("--link-dest=".toList ++ pathJoin dest (l.getLast hne)) ∈ cmd ∧
      ∀ x ∈ l, keyRel pre x (l.getLast hne) := by
  obtain ⟨-, hc⟩ := create_backup_eq user host dest src rsyncBin rsyncFlags exclude
    sshKey pre dryRun now lsRes entries l cmd hls hcmd
  have hbase := countP_rsync_cmd rsyncBin rsyncFlags dryRun sshKey hBin hFlags
  have hexcl := countP_excl_args exclude
  have htail : ([src, destArg user host dest (generate_backup_name pre now)] :
      List (List Char)).countP isLinkDest = 0 := by
    simp [List.countP_cons, hSrc, hDest]
  constructor
  · intro hnil
    subst hnil
    have hmr : most_recent_backup ([] : List (List Char)) = none := rfl
    rw [hc, hmr]
    simp only [List.countP_append, hbase, hexcl, htail, link_args, List.countP_nil]
  · intro hne
    have hmr : most_recent_backup l = some (l.getLast hne) :=
      List.getLast?_eq_getLast l hne
    have hsorted := list_dest_backups_sorted pre lsRes entries l hls
    refine ⟨?_, ?_, ?_⟩
    · rw [hc, hmr]
      simp only [List.countP_append, hbase, hexcl, htail, countP_link_args_some]
    · rw [hc, hmr]
      simp [link_args]
    · exact fun x hx => rel_getLast_of_sorted l hsorted hne x hx

/-- Witness for C8 on a concrete configuration, exercising both the
empty-listing and the nonempty-listing branch. -/
theorem create_backup_link_dest_wit :
    (([ "01-01-2015-12:00:00".toList ] : List (List Char)) = [] →
      (["rsync".toList, "-az".toList, "-v".toList,
        "--link-dest=/b/01-01-2015-12:00:00".toList, "/s".toList,
        "u@h:/b/01-01-2015-12:00:01".toList] : List (List Char)).countP isLinkDest = 0) ∧
    ∀ hne : ([ "01-01-2015-12:00:00".toList ] : List (List Char)) ≠ [],
      (["rsync".toList, "-az".toList, "-v".toList,
        "--link-dest=/b/01-01-2015-12:00:00".toList, "/s".toList,
        "u@h:/b/01-01-2015-12:00:01".toList] : List (List Char)).countP isLinkDest = 1 ∧
      ("--link-dest=".toList ++ pathJoin "/b".toList
        (([ "01-01-2015-12:00:00".toList ] : List (List Char)).getLast hne)) ∈
        (["rsync".toList, "-az".toList, "-v".toList,
          "--link-dest=/b/01-01-2015-12:00:00".toList, "/s".toList,
          "u@h:/b/01-01-2015-12:00:01".toList] : List (List Char)) ∧
      ∀ x ∈ ([ "01-01-2015-12:00:00".toList ] : List (List Char)),
        keyRel [] x (([ "01-01-2015-12:00:00".toList ] : List (List Char)).getLast hne) :=
  create_backup_link_dest (some "u".toList) "h".toList "/b".toList "/s".toList
    "rsync".toList "-az".toList none none [] false ⟨2015, 1, 1, 12, 0, 1⟩ 0
    ["01-01-2015-12:00:00".toList]
    ["01-01-2015-12:00:00".toList]
    (["rsync".toList, "-az".toList, "-v".toList,
      "--link-dest=/b/01-01-2015-12:00:00".toList, "/s".toList,
      "u@h:/b/01-01-2015-12:00:01".toList])
    (by decide) (by decide) (by decide) (by decide) (by decide) (by decide)

/-! ## Evaluations documenting the code's slips (code-bug claims) -/

/-- C3.  `remove_backups` never returns the removal count: every `return`
statement in it is bare and the final path falls off the end, so Python
returns `None` on every path — here with three snapshots and retention
limit 2, where the repository's own test suite
(`test_greater_max_backups`) asserts a return value of 1.  The count 1
appears only in the targeted-set length and the final info message. -/
theorem remove_backups_returns_none :
    (remove_backups [] "/b".toList 2 false 0
      ["01-01-2015-12:00:00".toList, "01-01-2015-12:00:01".toList,
        "01-01-2015-12:00:02".toList] 0).retVal = none ∧
    (remove_backups [] "/b".toList 2 false 0
      ["01-01-2015-12:00:00".toList, "01-01-2015-12:00:01".toList,
        "01-01-2015-12:00:02".toList] 0).toRemove.length = 1 ∧
    (remove_backups [] "/b".toList 2 false 0
      ["01-01-2015-12:00:00".toList, "01-01-2015-12:00:01".toList,
        "01-01-2015-12:00:02".toList] 0).finalInfo = some 1 ∧
    (remove_backups [] "/b".toList 2 false 0
      ["01-01-2015-12:00:00".toList, "01-01-2015-12:00:01".toList] 0).retVal =
      none := by
  decide

/-- C4.  When the existence test succeeds (`test -d` exits 0) but the
writability test exits non-zero, *neither* variant of `check_dest`
signals anything: the writability exit status is bound to `red` (a typo)
while the subsequent check reads `res`, which still holds the existence
status 0, so both variants return normally with no
destination-not-writable report — against the claim, the method's own
comment ("either way make sure we can write there") and the test suite's
expected `(True, False)` result. -/
theorem check_dest_ignores_writability :
    (check_dest false 0 0 1).notWritableReported = false ∧
    (check_dest false 0 0 1).outcome = POutcome.normal ∧
    (check_dest_b false 0 0 1).notWritableReported = false ∧
    (check_dest_b false 0 0 1).outcome = POutcome.normal := by
  decide

/-- C5.  When the existence test fails and dry-run is off,
`backup_manager.check_dest` raises `NameError` before any `mkdir` is
issued (its info call reads `outs`, but the message template is bound to
`o`), against the claim and its own docstring; the `backup.py` variant
does behave as claimed: it reports the absence, issues the recursive
`mkdir -p`, and then re-checks (the writability test).  In dry-run mode
both variants report the absence without issuing a creation command. -/
theorem check_dest_create_branch :
    (check_dest false 1 0 0).outcome = POutcome.nameError ∧
    (check_dest false 1 0 0).mkdirIssued = false ∧
    (check_dest_b false 1 0 0).outcome = POutcome.normal ∧
    (check_dest_b false 1 0 0).mkdirIssued = true ∧
    (check_dest_b false 1 0 0).absentReported = true ∧
    (check_dest_b false 1 0 0).writeTestIssued = true ∧
    (check_dest true 1 0 0).mkdirIssued = false ∧
    (check_dest true 1 0 0).absentReported = true ∧
    (check_dest_b true 1 0 0).mkdirIssued = false ∧
    (check_dest_b true 1 0 0).absentReported = true := by
  decide

/-- C6.  `check_host` returns no boolean: on success it returns `None`,
and on a failing no-op command it raises `TypeError` (its `fatal` call
passes one argument where `backup_printer.fatal(self, s, exit_code)`
requires two) — against the claim and the repository's own tests, which
assert `assertTrue(check_host())` / `assertFalse(check_host())`. -/
theorem check_host_raises_on_unreachable :
    (check_host 1).outcome = POutcome.typeError ∧
    (check_host 1).retVal = none ∧
    (check_host 0).outcome = POutcome.normal ∧
    (check_host 0).retVal = none := by
  decide

/-- C9.  The remote destination argument of the rsync command is built
with `'{0}@{1}:{2}'.format(self.__user, self.__host, …)` — the `@` is
unconditional, so with no configured user the target begins with the
literal string `None@` instead of the bare host; with a configured user
it is `user@host:…` as claimed. -/
theorem create_backup_none_user :
    create_backup none "h".toList "/b".toList "/s".toList "rsync".toList
      "-az".toList none none [] false ⟨2015, 1, 1, 12, 0, 0⟩ 0 [] =
      some ["rsync".toList, "-az".toList, "-v".toList, "/s".toList,
        "None@h:/b/01-01-2015-12:00:00".toList] ∧
    create_backup (some "u".toList) "h".toList "/b".toList "/s".toList
      "rsync".toList "-az".toList none none [] false ⟨2015, 1, 1, 12, 0, 0⟩ 0 [] =
      some ["rsync".toList, "-az".toList, "-v".toList, "/s".toList,
        "u@h:/b/01-01-2015-12:00:00".toList] := by
  decide

end PyBackup
